import Mathlib

/-!
Shallow embedding of `bank_application/database.py` (class `CompleteDatabase`).

Modelling conventions:
* The SQLite database plus the in-memory object state is one Lean structure
  `DBState`: the `settings` row keyed `password_hash` becomes
  `passwordHash : Option (String × HashVal)` (the stored value `salt:hash`
  decomposed at the colon — the salt is `secrets.token_hex(16)`, hex and
  colon-free, so the `f"{salt}:{hash}"` join and the `split(':')` read are
  mutually inverse); the `bank_cards` table becomes a list of `Card` in
  insertion order with an AUTOINCREMENT counter `nextId`;
  `self.master_password` becomes `masterPassword : Option String`.
* `hashlib.pbkdf2_hmac('sha256', password, salt, 100000).hex()` is modelled
  symbolically as the injective constructor `HashVal.mk password salt`
  (PBKDF2 is collision-free for the purpose of this development); the
  Fernet key built by `_get_encryption_key` (PBKDF2HMAC + urlsafe base64)
  is likewise the injective constructor `EncKey.mk password salt`.
* Fernet authenticated encryption is modelled symbolically by the type
  `SVal`: a Python string that is a valid Fernet token under key `k` with
  plaintext `p` is `SVal.tok k p`; every other string `s` is `SVal.raw s`.
  A raw string is never a valid token under any key (Fernet tokens carry a
  verified HMAC, so an accidental collision is excluded symbolically), and
  a token is a nonempty base64 string, so only `raw ""` is falsy.
* Python exceptions that the embedded code raises or catches are the
  `Except Err` monad: `ValueError("Master password not set or logged in")`
  is `Err.notAuthenticated`, `ValueError("Setup not complete")` is
  `Err.setupIncomplete`.
* `datetime.now().isoformat()` is nondeterministic input passed as a `now`
  argument; `secrets.token_hex(16)` likewise as a `salt` argument.
-/

/-- Symbolic value of `hashlib.pbkdf2_hmac('sha256', password, salt.encode,
100000).hex()` from `set_master_password` / `check_master_password`:
modelled as the injective pair of its inputs. -/
structure HashVal where
  password : String
  salt : String
deriving DecidableEq, Repr

/-- Symbolic value of the Fernet key derived in `_get_encryption_key`:
`base64.urlsafe_b64encode(PBKDF2HMAC(SHA256, 32, salt, 100000).derive(master_password))`,
modelled as the injective pair of its inputs. -/
structure EncKey where
  password : String
  salt : String
deriving DecidableEq, Repr

/-- A Python string as it flows through the sensitive-field columns:
either an ordinary (raw) string, or a Fernet token produced by
`Fernet(k).encrypt(plaintext)`. -/
inductive SVal where
  | raw (s : String)
  | tok (k : EncKey) (plaintext : String)
deriving DecidableEq, Repr

/-- Python truthiness of an `SVal`: `if not data` is `True` exactly for the
empty string; a Fernet token is a nonempty base64 string. -/
def SVal.isEmpty : SVal → Bool
  | .raw s => s.isEmpty
  | .tok _ _ => false

/-- The exceptions raised by `_get_encryption_key`. -/
inductive Err where
  | notAuthenticated
  | setupIncomplete
deriving DecidableEq, Repr

/-- One row of the `bank_cards` table. Sensitive columns hold an `SVal`
(they store whatever string the code wrote, ciphertext or not); the other
columns are plain text. -/
structure Card where
  id : Nat
  bank_name : String
  branch_name : String
  ifsc_code : String
  account_number : SVal
  atm_number : SVal
  pin : SVal
  validity_start : String
  validity_end : String
  cvv : SVal
  card_type : String
  card_network : String
  family_member : String
  created_at : String
  updated_at : String
deriving DecidableEq, Repr

/-- The twelve plaintext field arguments of `add_card` / `update_card`. -/
structure CardFields where
  bank_name : String
  branch_name : String
  ifsc_code : String
  account_number : String
  atm_number : String
  pin : String
  validity_start : String
  validity_end : String
  cvv : String
  card_type : String
  card_network : String
  family_member : String
deriving DecidableEq, Repr

/-- Whole-system state: the `CompleteDatabase` object together with its
SQLite file. `passwordHash` is the `settings` row with key
`password_hash`, split at the colon into `(salt, hash)`. -/
structure DBState where
  masterPassword : Option String
  passwordHash : Option (String × HashVal)
  cards : List Card
  nextId : Nat
deriving DecidableEq, Repr

/-- Python truthiness of `self.master_password`: `if not self.master_password`
holds for `None` and for the empty string. -/
def pyFalsy : Option String → Bool
  | none => true
  | some s => s.isEmpty

/-- `is_setup_complete`: true iff a `password_hash` settings entry exists. -/
def is_setup_complete (st : DBState) : Bool :=
  st.passwordHash.isSome

/-- `set_master_password(password)`: store `salt:hash` (replacing any prior
entry, `INSERT OR REPLACE`) and hold the plaintext password in memory.
The fresh random `salt = secrets.token_hex(16)` is passed in. -/
def set_master_password (st : DBState) (password salt : String) : DBState :=
  { st with
    passwordHash := some (salt, HashVal.mk password salt)
    masterPassword := some password }

/-- `check_master_password(password)`: recompute the hash with the stored
salt; on a match hold the password in memory and return `True`, otherwise
return `False` unchanged; return `False` when no entry exists. -/
def check_master_password (st : DBState) (password : String) : Bool × DBState :=
  match st.passwordHash with
  | none => (false, st)
  | some (salt, storedHash) =>
    if HashVal.mk password salt = storedHash then
      (true, { st with masterPassword := some password })
    else
      (false, st)

/-- `_get_encryption_key`: raise unless a master password is held (Python
truthiness: `None` and `""` both fail) and the `password_hash` settings
entry exists; derive the Fernet key from the master password and the
stored auth salt (`result[0].split(':')[0]`). -/
def get_encryption_key (st : DBState) : Except Err EncKey :=
  if pyFalsy st.masterPassword then
    .error .notAuthenticated
  else
    match st.passwordHash with
    | none => .error .setupIncomplete
    | some (salt, _) => .ok (EncKey.mk (st.masterPassword.getD "") salt)

/-- `encrypt_data(data)`: the empty string maps to the empty string without
touching the key; otherwise `Fernet(self._get_encryption_key()).encrypt(data)`,
whose key derivation may raise. -/
def encrypt_data (st : DBState) (data : String) : Except Err SVal :=
  if data.isEmpty then
    .ok (.raw "")
  else do
    let k ← get_encryption_key st
    .ok (.tok k data)

/-- `decrypt_data(encrypted_data)`: the empty string maps to the empty
string; otherwise attempt `Fernet(key).decrypt`, and on ANY exception —
key derivation failing (no session, setup incomplete), a token under a
different key, or a raw non-token string — the bare `except Exception`
returns the input unchanged. The function can never raise. -/
def decrypt_data (st : DBState) (v : SVal) : Except Err SVal :=
  if v.isEmpty then
    .ok (.raw "")
  else
    .ok (match get_encryption_key st with
      | .error _ => v
      | .ok k =>
        match v with
        | .raw s => .raw s
        | .tok k' p => if k' = k then .raw p else .tok k' p)

/-- `mask_card_number(card_number)`: first four characters, the fixed
separator, last four characters when the length is at least 16; the
generic placeholder otherwise. -/
def mask_card_number (card_number : String) : String :=
  if card_number.length ≥ 16 then
    card_number.take 4 ++ " **** **** " ++ card_number.drop (card_number.length - 4)
  else
    "**** **** **** ****"

/-- `mask_cvv(cvv)`: `"***"` when the length is exactly 3, `"**"` otherwise. -/
def mask_cvv (cvv : String) : String :=
  if cvv.length = 3 then "***" else "**"

/-- The card row inserted by `add_card`: metadata plaintext, the four
sensitive columns already encrypted, both timestamps set to `now`. -/
def mkCard (cid : Nat) (f : CardFields) (ea eatm ep ec : SVal) (now : String) : Card :=
  { id := cid
    bank_name := f.bank_name
    branch_name := f.branch_name
    ifsc_code := f.ifsc_code
    account_number := ea
    atm_number := eatm
    pin := ep
    cvv := ec
    validity_start := f.validity_start
    validity_end := f.validity_end
    card_type := f.card_type
    card_network := f.card_network
    family_member := f.family_member
    created_at := now
    updated_at := now }

/-- `add_card(...)`: encrypt the four sensitive fields (an exception here
happens before the INSERT, so the table is untouched on failure), insert
the row, return the fresh AUTOINCREMENT id. -/
def add_card (st : DBState) (f : CardFields) (now : String) :
    Except Err (DBState × Nat) := do
  let ea ← encrypt_data st f.account_number
  let eatm ← encrypt_data st f.atm_number
  let ep ← encrypt_data st f.pin
  let ec ← encrypt_data st f.cvv
  let cid := st.nextId
  .ok ({ st with
          cards := st.cards ++ [mkCard cid f ea eatm ep ec now]
          nextId := cid + 1 },
       cid)

/-- `update_card(card_id, ...)`: encrypt the four sensitive fields (again
before the UPDATE, so failure leaves the table untouched), then
`UPDATE ... WHERE id=?` — rewriting every column but `id` and `created_at`
on the matching row, touching nothing when no row matches. -/
def update_card (st : DBState) (card_id : Nat) (f : CardFields) (now : String) :
    Except Err DBState := do
  let ea ← encrypt_data st f.account_number
  let eatm ← encrypt_data st f.atm_number
  let ep ← encrypt_data st f.pin
  let ec ← encrypt_data st f.cvv
  .ok { st with
        cards := st.cards.map fun c =>
          if c.id = card_id then
            { c with
              bank_name := f.bank_name
              branch_name := f.branch_name
              ifsc_code := f.ifsc_code
              account_number := ea
              atm_number := eatm
              pin := ep
              validity_start := f.validity_start
              validity_end := f.validity_end
              cvv := ec
              card_type := f.card_type
              card_network := f.card_network
              family_member := f.family_member
              updated_at := now }
          else c }

/-- `delete_card(card_id)`: `DELETE FROM bank_cards WHERE id = ?`; no row
matches, nothing happens, no error. -/
def delete_card (st : DBState) (card_id : Nat) : DBState :=
  { st with cards := st.cards.filter fun c => c.id ≠ card_id }

/-! ### Excel import (`import_from_excel`)

A workbook's data rows (row 2 onward of the active sheet) are a
`List Row`; a cell is `Option String` — `none` is an empty cell, whose
`.value` is Python `None`. `str(...)` on a cell value already a string is
the identity, so the `str(cell.value or default)` idiom is `cellOr`. -/

/-- Python `str.strip()` (ASCII whitespace suffices for this data):
drop leading and trailing whitespace. -/
def pyStrip (s : String) : String :=
  ⟨((s.data.dropWhile Char.isWhitespace).reverse.dropWhile Char.isWhitespace).reverse⟩

/-- `ws.cell(...).value or default`: Python `or` yields the default for a
`None` cell and for an empty-string cell (both falsy), the cell's own
string otherwise. -/
def cellOr (cell : Option String) (default : String) : String :=
  match cell with
  | none => default
  | some s => if s.isEmpty then default else s

/-- `str(ws.cell(row=r, column=c).value or default).strip()`. -/
def cellStr (cell : Option String) (default : String) : String :=
  pyStrip (cellOr cell default)

/-- Columns 2–13 of one data row of the imported sheet. -/
structure Row where
  bank_name : Option String
  branch_name : Option String
  ifsc_code : Option String
  account_number : Option String
  atm_number : Option String
  pin : Option String
  validity_start : Option String
  validity_end : Option String
  cvv : Option String
  card_type : Option String
  card_network : Option String
  family_member : Option String
deriving DecidableEq, Repr

/-- The twelve field reads at the top of the row loop: every field is a
trimmed string; `card_type` defaults to `"Debit"` and `card_network` to
`"RuPay"`, the rest to `""`. -/
def readRow (r : Row) : CardFields :=
  { bank_name := cellStr r.bank_name ""
    branch_name := cellStr r.branch_name ""
    ifsc_code := cellStr r.ifsc_code ""
    account_number := cellStr r.account_number ""
    atm_number := cellStr r.atm_number ""
    pin := cellStr r.pin ""
    validity_start := cellStr r.validity_start ""
    validity_end := cellStr r.validity_end ""
    cvv := cellStr r.cvv ""
    card_type := cellStr r.card_type "Debit"
    card_network := cellStr r.card_network "RuPay"
    family_member := cellStr r.family_member "" }

/-- `''.join(filter(str.isdigit, s))`: keep only the digit characters. -/
def digitsOnly (s : String) : String :=
  ⟨s.data.filter Char.isDigit⟩

/-- `all([bank_name, branch_name, ifsc_code, account_number, atm_number,
pin, cvv, validity_start, validity_end, family_member])`: the ten
required fields are truthy (nonempty) after trimming. -/
def requiredOk (f : CardFields) : Bool :=
  !f.bank_name.isEmpty && !f.branch_name.isEmpty && !f.ifsc_code.isEmpty &&
  !f.account_number.isEmpty && !f.atm_number.isEmpty && !f.pin.isEmpty &&
  !f.cvv.isEmpty && !f.validity_start.isEmpty && !f.validity_end.isEmpty &&
  !f.family_member.isEmpty

/-- Gregorian leap year, as `datetime` uses. -/
def isLeap (y : Nat) : Bool :=
  (y % 4 = 0 && y % 100 ≠ 0) || y % 400 = 0

/-- Length of a month, as `datetime` uses. -/
def daysInMonth (y m : Nat) : Nat :=
  if m = 2 then (if isLeap y then 29 else 28)
  else if m = 4 || m = 6 || m = 9 || m = 11 then 30
  else 31

/-- Split a character list at every `'-'` (the list analogue of
`str.split('-')`). -/
def splitDash : List Char → List (List Char)
  | [] => [[]]
  | c :: cs =>
    if c = '-' then [] :: splitDash cs
    else
      match splitDash cs with
      | [] => [[c]]
      | p :: ps => (c :: p) :: ps

/-- Numeric value of a digit string (`int(...)` applied by `_strptime`). -/
def digitsToNat (l : List Char) : Nat :=
  l.foldl (fun n c => n * 10 + (c.toNat - 48)) 0

/-- `datetime.strptime(s, "%Y-%m-%d")` succeeds: CPython's `_strptime`
matches `%Y` as exactly four digits, `%m` and `%d` as one or two digits,
the two literal dashes, requires the whole string to match, and then the
`datetime` constructor enforces `1 <= year`, `1 <= month <= 12` and
`1 <= day <= days_in_month(year, month)`. -/
def strptimeYmd (s : String) : Bool :=
  match splitDash s.data with
  | [ys, ms, ds] =>
    ys.length = 4 && ys.all Char.isDigit &&
    (1 ≤ ms.length && ms.length ≤ 2) && ms.all Char.isDigit &&
    (1 ≤ ds.length && ds.length ≤ 2) && ds.all Char.isDigit &&
    (let y := digitsToNat ys
     let m := digitsToNat ms
     let d := digitsToNat ds
     1 ≤ y && 1 ≤ m && m ≤ 12 && 1 ≤ d && d ≤ daysInMonth y m)
  | _ => false

/-- The per-row validation pipeline of `import_from_excel`, up to but not
including the `add_card` call: read the twelve trimmed fields; reject if a
required field is empty; strip non-digits from the account and ATM
numbers; reject unless the cleaned ATM number has exactly 16 digits;
reject unless both validity dates parse as `%Y-%m-%d`. `none` means the
row is skipped by one of these checks. -/
def rowValidate (r : Row) : Option CardFields :=
  let f := readRow r
  if requiredOk f then
    let f := { f with
               account_number := digitsOnly f.account_number
               atm_number := digitsOnly f.atm_number }
    if f.atm_number.length = 16 then
      if strptimeYmd f.validity_start && strptimeYmd f.validity_end then
        some f
      else none
    else none
  else none

/-- One iteration of the row loop: on a validation failure, or on any
exception out of `add_card` (caught by the per-row `except Exception`,
which fires before the INSERT so the table is untouched), bump the skipped
count; otherwise insert the card and bump the imported count. -/
def importStep (acc : DBState × Nat × Nat) (r : Row) (now : String) :
    DBState × Nat × Nat :=
  match rowValidate r with
  | none => (acc.1, acc.2.1, acc.2.2 + 1)
  | some f =>
    match add_card acc.1 f now with
    | .ok (st', _) => (st', acc.2.1 + 1, acc.2.2)
    | .error _ => (acc.1, acc.2.1, acc.2.2 + 1)

/-- `import_from_excel`: fold the row loop over the data rows (row 2 to
`ws.max_row`), starting from zero counts, returning the final state and
`(imported_count, skipped_count)`. -/
def import_from_excel (st : DBState) (rows : List Row) (now : String) :
    DBState × Nat × Nat :=
  rows.foldl (fun acc r => importStep acc r now) (st, 0, 0)

/-! ### Specification-side predicates -/

/-- How a sensitive input value must look once persisted by a write in
state `st`: an empty input is stored as the empty string, a nonempty one
as a Fernet token, under the key of the session that performed the write.
Since the key is a function of `st`, all fields written from one state
share one key. -/
def storedSensitive (st : DBState) (src : String) (stored : SVal) : Prop :=
  (src = "" ∧ stored = SVal.raw "") ∨
  (src ≠ "" ∧ ∃ k, get_encryption_key st = Except.ok k ∧ stored = SVal.tok k src)

/-- A stored value that authenticated decryption cannot process in state
`st`: any raw (legacy or corrupt, non-token) string, or a token under a
key other than the session's. -/
def undecryptable (st : DBState) (v : SVal) : Prop :=
  ∀ k p, v = SVal.tok k p → get_encryption_key st ≠ Except.ok k

/-! ### Concrete states used by the witnesses -/

/-- An unlocked test session: master password `"pw"`, auth salt `"abcd"`. -/
def testState : DBState :=
  { masterPassword := some "pw"
    passwordHash := some ("abcd", HashVal.mk "pw" "abcd")
    cards := []
    nextId := 1 }

/-- The same store, but with no session (`self.master_password is None`). -/
def lockedState : DBState :=
  { masterPassword := none
    passwordHash := some ("abcd", HashVal.mk "pw" "abcd")
    cards := []
    nextId := 1 }

/-- A fresh store: no settings entry, no cards, no session. -/
def emptyState : DBState :=
  { masterPassword := none, passwordHash := none, cards := [], nextId := 1 }

/-! ### Helper lemmas -/

lemma get_encryption_key_congr {st st' : DBState}
    (h1 : st'.masterPassword = st.masterPassword)
    (h2 : st'.passwordHash = st.passwordHash) :
    get_encryption_key st' = get_encryption_key st := by
  unfold get_encryption_key
  rw [h1, h2]

lemma encrypt_data_of_key {st : DBState} {k : EncKey}
    (hk : get_encryption_key st = .ok k) (s : String) :
    encrypt_data st s = .ok (if s.isEmpty then SVal.raw "" else SVal.tok k s) := by
  unfold encrypt_data
  by_cases hs : s.isEmpty
  · rw [if_pos hs, if_pos hs]
  · rw [if_neg hs, if_neg hs, hk]; rfl

lemma encrypt_data_err {st : DBState} {e : Err}
    (hk : get_encryption_key st = .error e) (s : String) (hs : s.isEmpty = false) :
    encrypt_data st s = .error e := by
  unfold encrypt_data
  rw [if_neg (by simp [hs]), hk]; rfl

lemma encrypt_data_stored {st : DBState} {s : String} {v : SVal}
    (h : encrypt_data st s = .ok v) : storedSensitive st s v := by
  by_cases hs : s.isEmpty
  · have he : encrypt_data st s = .ok (SVal.raw "") := by
      unfold encrypt_data; rw [if_pos hs]
    rw [he] at h
    injection h with h
    exact Or.inl ⟨(String.isEmpty_iff s).mp hs, h.symm⟩
  · cases hk : get_encryption_key st with
    | error e =>
      have he : encrypt_data st s = .error e := by
        unfold encrypt_data; rw [if_neg hs, hk]; rfl
      rw [he] at h
      exact Except.noConfusion h
    | ok k =>
      have he : encrypt_data st s = .ok (SVal.tok k s) := by
        unfold encrypt_data; rw [if_neg hs, hk]; rfl
      rw [he] at h
      injection h with h
      exact Or.inr ⟨fun e => hs (by rw [e]; rfl), k, hk, h.symm⟩

/-! ### C1: encrypt/decrypt round trip -/

/-- C1. Once a session is unlocked with the key that produced the
ciphertext (the same master password and stored salt are in effect),
`decrypt_data (encrypt_data s)` returns `s` for every string `s`; in
particular the empty string round-trips to the empty string without being
encrypted (`encrypt_data` maps it to `""`, not to a token). -/
theorem encrypt_decrypt_roundtrip (st : DBState) (k : EncKey) (s : String)
    (hk : get_encryption_key st = .ok k) :
    (encrypt_data st "" = .ok (SVal.raw "")) ∧
    ∃ c, encrypt_data st s = .ok c ∧ decrypt_data st c = .ok (SVal.raw s) := by
  refine ⟨rfl, ?_⟩
  by_cases hs : s.isEmpty
  · have hse := (String.isEmpty_iff s).mp hs
    subst hse
    exact ⟨SVal.raw "", rfl, rfl⟩
  · refine ⟨SVal.tok k s, ?_, ?_⟩
    · have := encrypt_data_of_key hk s
      rwa [if_neg hs] at this
    · unfold decrypt_data
      rw [if_neg (by simp [SVal.isEmpty]), hk]
      simp

/-- Witness for C1 at the concrete unlocked state `testState` and the
plaintext `"secret"`. -/
theorem encrypt_decrypt_roundtrip_witness :
    encrypt_data testState "" = .ok (SVal.raw "") ∧
    encrypt_data testState "secret" = .ok (SVal.tok (EncKey.mk "pw" "abcd") "secret") ∧
    decrypt_data testState (SVal.tok (EncKey.mk "pw" "abcd") "secret") =
      .ok (SVal.raw "secret") := by
  obtain ⟨he, c, h1, h2⟩ :=
    encrypt_decrypt_roundtrip testState (EncKey.mk "pw" "abcd") "secret" rfl
  have hc : c = SVal.tok (EncKey.mk "pw" "abcd") "secret" :=
    Except.ok.inj (h1.symm.trans
      (rfl : encrypt_data testState "secret" =
        .ok (SVal.tok (EncKey.mk "pw" "abcd") "secret")))
  rw [hc] at h1 h2
  exact ⟨he, h1, h2⟩

/-! ### C4: the silent decryption fallback -/

/-- C4. For every non-empty stored value that authenticated decryption
cannot process in the current state — a token under a different key, or a
raw (corrupted / legacy unencrypted) string — `decrypt_data` returns the
input unchanged and never signals an error. -/
theorem decrypt_fallback (st : DBState) (v : SVal)
    (hne : v.isEmpty = false) (hu : undecryptable st v) :
    decrypt_data st v = .ok v := by
  unfold decrypt_data
  rw [if_neg (by simp [hne])]
  cases hk : get_encryption_key st with
  | error e =>
    cases v <;> rfl
  | ok k =>
    cases v with
    | raw s => rfl
    | tok k' p =>
      have hkk : k' ≠ k := fun h => hu k' p rfl (h ▸ hk)
      simp [hkk]

/-- Witness for C4: in `testState` (key `EncKey.mk "pw" "abcd"`), a token
under the foreign key `EncKey.mk "other" "abcd"` comes back unchanged. -/
theorem decrypt_fallback_witness :
    decrypt_data testState (SVal.tok (EncKey.mk "other" "abcd") "x") =
      .ok (SVal.tok (EncKey.mk "other" "abcd") "x") :=
  decrypt_fallback testState (SVal.tok (EncKey.mk "other" "abcd") "x") rfl
    (fun k p h hk => by
      cases h
      rw [show get_encryption_key testState = .ok (EncKey.mk "pw" "abcd") from rfl] at hk
      simp at hk)

/-! ### C5: behaviour without an unlocked session -/

/-- Counterexample to C5 as stated. In the locked state (no master
password held, `pyFalsy` true), calling `decrypt_data` on the non-empty
string `"abc"` does NOT signal a "not authenticated" error: the
`ValueError` raised by `_get_encryption_key` is swallowed by
`decrypt_data`'s bare `except Exception`, and the input is returned
unchanged, silently. -/
theorem decrypt_locked_counterexample :
    pyFalsy lockedState.masterPassword = true ∧
    decrypt_data lockedState (SVal.raw "abc") = .ok (SVal.raw "abc") := by
  constructor
  · rfl
  · rfl

/-- C5 (amended). Without an unlocked session, `encrypt_data` on a
non-empty string signals the explicit "Master password not set or logged
in" error; `decrypt_data`, however, never signals: its fallback catches
the same error and silently returns the (non-empty) input unchanged. -/
theorem locked_session_behaviour (st : DBState) (s : String) (v : SVal)
    (hlocked : pyFalsy st.masterPassword = true) :
    (s.isEmpty = false → encrypt_data st s = .error Err.notAuthenticated) ∧
    (v.isEmpty = false → decrypt_data st v = .ok v) ∧
    (∀ e, decrypt_data st v ≠ .error e) := by
  have hk : get_encryption_key st = .error Err.notAuthenticated := by
    unfold get_encryption_key
    rw [if_pos hlocked]
  refine ⟨fun hs => encrypt_data_err hk s hs, fun hv => ?_, fun e => ?_⟩
  · unfold decrypt_data
    rw [if_neg (by simp [hv]), hk]
  · unfold decrypt_data
    by_cases hv : v.isEmpty <;> simp [hv]

/-- Witness for the amended C5 at the concrete locked state. -/
theorem locked_session_behaviour_witness :
    encrypt_data lockedState "abc" = .error Err.notAuthenticated ∧
    decrypt_data lockedState (SVal.raw "xyz") = .ok (SVal.raw "xyz") :=
  have h := locked_session_behaviour lockedState "abc" (SVal.raw "xyz") rfl
  ⟨h.1 rfl, h.2.1 rfl⟩

/-! ### C7: display masking -/

/-- C7. `mask_card_number` returns the input's first 4 characters, the
fixed separator `" **** **** "`, and its last 4 characters whenever the
input has at least 16 characters, and the fully generic placeholder for
every shorter input; `mask_cvv` returns `"***"` exactly when the input has
length 3 and `"**"` for every other length (including length 4). -/
theorem masking_spec (s c : String) :
    (16 ≤ s.length →
      (mask_card_number s).data =
        s.data.take 4 ++ (" **** **** ").data ++ s.data.drop (s.data.length - 4)) ∧
    (s.length < 16 → mask_card_number s = "**** **** **** ****") ∧
    (c.length = 3 → mask_cvv c = "***") ∧
    (c.length ≠ 3 → mask_cvv c = "**") := by
  refine ⟨fun h16 => ?_, fun hlt => ?_, fun h3 => ?_, fun hn3 => ?_⟩
  · unfold mask_card_number
    rw [if_pos h16]
    simp [String.data_append, String.data_take, String.data_drop]
  · unfold mask_card_number
    rw [if_neg (by omega)]
  · unfold mask_cvv
    rw [if_pos h3]
  · unfold mask_cvv
    rw [if_neg hn3]

/-- Witness for C7: a 16-character number keeps its real first and last
four characters; a 15-character one is fully masked; a 3-character CVV
masks to `"***"` and a 4-character PIN to `"**"`. -/
theorem masking_spec_witness :
    (mask_card_number "1234567890123456").data = ("1234 **** **** 3456").data ∧
    mask_card_number "123456789012345" = "**** **** **** ****" ∧
    mask_cvv "123" = "***" ∧
    mask_cvv "1234" = "**" :=
  ⟨by rw [(masking_spec "1234567890123456" "").1 (by decide)]; rfl,
   (masking_spec "123456789012345" "").2.1 (by decide),
   (masking_spec "" "123").2.2.1 (by decide),
   (masking_spec "" "1234").2.2.2 (by decide)⟩

/-! ### C3: master-password authentication -/

/-- C3. After `set_master_password p₀` (with any fresh salt, over any prior
state), `check_master_password p` returns true exactly when `p = p₀`
(PBKDF2 modelled injectively); with no `password_hash` settings entry it
returns false for every candidate and changes nothing; a true result
establishes the session by holding `p` as the in-memory master password,
and a false result leaves the whole state — in particular the locked
session — unchanged. -/
theorem check_master_password_spec (st : DBState) (p₀ salt p : String) (st' : DBState) :
    ((check_master_password (set_master_password st p₀ salt) p).1 = true ↔ p = p₀) ∧
    (st'.passwordHash = none → check_master_password st' p = (false, st')) ∧
    ((check_master_password st' p).1 = true →
      (check_master_password st' p).2 = { st' with masterPassword := some p }) ∧
    ((check_master_password st' p).1 = false → (check_master_password st' p).2 = st') := by
  refine ⟨?_, fun hnone => ?_, ?_, ?_⟩
  · unfold check_master_password set_master_password
    by_cases hp : p = p₀
    · subst hp
      simp
    · simp [HashVal.mk.injEq, hp]
  · unfold check_master_password
    rw [hnone]
  · unfold check_master_password
    cases hph : st'.passwordHash with
    | none => intro h; exact absurd h (by simp)
    | some sv =>
      obtain ⟨salt', storedHash⟩ := sv
      by_cases hh : HashVal.mk p salt' = storedHash <;> simp [hh]
  · unfold check_master_password
    cases hph : st'.passwordHash with
    | none => intro _; rfl
    | some sv =>
      obtain ⟨salt', storedHash⟩ := sv
      by_cases hh : HashVal.mk p salt' = storedHash <;> simp [hh]

/-- Witness for C3: over a fresh store, setting `"pw"` makes
`check_master_password` accept `"pw"` (holding it in memory) and reject
`"bad"` unchanged, and a store without the settings entry rejects
everything. -/
theorem check_master_password_spec_witness :
    (check_master_password (set_master_password emptyState "pw" "salt1") "pw").1 = true ∧
    check_master_password emptyState "pw" = (false, emptyState) ∧
    (check_master_password testState "pw").2 =
      { testState with masterPassword := some "pw" } ∧
    (check_master_password testState "bad").2 = testState :=
  ⟨(check_master_password_spec emptyState "pw" "salt1" "pw" emptyState).1.mpr rfl,
   (check_master_password_spec emptyState "pw" "salt1" "pw" emptyState).2.1 rfl,
   (check_master_password_spec emptyState "pw" "salt1" "pw" testState).2.2.1 (by decide),
   (check_master_password_spec emptyState "pw" "salt1" "bad" testState).2.2.2 (by decide)⟩

/-! ### Resolved forms of the CRUD writes under a valid key -/

/-- What `encrypt_data` produces under key `k`: the empty string stays
empty, anything else becomes a token under `k`. -/
def encUnder (k : EncKey) (s : String) : SVal :=
  if s.isEmpty then SVal.raw "" else SVal.tok k s

lemma encrypt_data_encUnder {st : DBState} {k : EncKey}
    (hk : get_encryption_key st = .ok k) (s : String) :
    encrypt_data st s = .ok (encUnder k s) :=
  encrypt_data_of_key hk s

/-- The row rewrite performed by `update_card`'s UPDATE on the matching
row, with the sensitive fields encrypted under `k`. -/
def updatedCard (k : EncKey) (f : CardFields) (now : String) (c : Card) : Card :=
  { c with
    bank_name := f.bank_name
    branch_name := f.branch_name
    ifsc_code := f.ifsc_code
    account_number := encUnder k f.account_number
    atm_number := encUnder k f.atm_number
    pin := encUnder k f.pin
    validity_start := f.validity_start
    validity_end := f.validity_end
    cvv := encUnder k f.cvv
    card_type := f.card_type
    card_network := f.card_network
    family_member := f.family_member
    updated_at := now }

lemma add_card_of_key {st : DBState} {k : EncKey}
    (hk : get_encryption_key st = .ok k) (f : CardFields) (now : String) :
    add_card st f now =
      .ok ({ st with
              cards := st.cards ++
                [mkCard st.nextId f (encUnder k f.account_number)
                  (encUnder k f.atm_number) (encUnder k f.pin)
                  (encUnder k f.cvv) now]
              nextId := st.nextId + 1 },
           st.nextId) := by
  unfold add_card
  rw [encrypt_data_encUnder hk f.account_number, encrypt_data_encUnder hk f.atm_number,
      encrypt_data_encUnder hk f.pin, encrypt_data_encUnder hk f.cvv]
  rfl

lemma update_card_of_key {st : DBState} {k : EncKey}
    (hk : get_encryption_key st = .ok k) (card_id : Nat) (f : CardFields)
    (now : String) :
    update_card st card_id f now =
      .ok { st with
            cards := st.cards.map fun c =>
              if c.id = card_id then updatedCard k f now c else c } := by
  unfold update_card updatedCard encUnder
  rw [encrypt_data_of_key hk f.account_number, encrypt_data_of_key hk f.atm_number,
      encrypt_data_of_key hk f.pin, encrypt_data_of_key hk f.cvv]
  rfl

/-! ### C8: update/delete with an absent id -/

/-- C8. With an unlocked session, `update_card` on an id that matches no
stored record succeeds and is a complete no-op (the resulting state equals
the old one, so every stored record — including those with other ids — is
left completely unchanged); `delete_card` on an absent id likewise returns
the state unchanged, raising no error in either case. (The session
hypothesis reflects the spec's precondition that credential-store writes
run with the key available; without it `update_card`'s failure is in the
encryption step, independent of the id.) -/
theorem absent_id_noop (st : DBState) (card_id : Nat) (f : CardFields)
    (now : String) (k : EncKey)
    (habsent : ∀ c ∈ st.cards, c.id ≠ card_id) :
    (get_encryption_key st = .ok k → update_card st card_id f now = .ok st) ∧
    delete_card st card_id = st := by
  constructor
  · intro hk
    rw [update_card_of_key hk card_id f now]
    have hmap : (st.cards.map fun c =>
        if c.id = card_id then updatedCard k f now c else c) = st.cards :=
      calc (st.cards.map fun c => if c.id = card_id then updatedCard k f now c else c)
          = st.cards.map id := List.map_congr_left (fun c hc => if_neg (habsent c hc))
        _ = st.cards := List.map_id st.cards
    rw [hmap]
  · unfold delete_card
    have hfil : st.cards.filter (fun c => c.id ≠ card_id) = st.cards :=
      List.filter_eq_self.mpr (fun c hc => by simpa using habsent c hc)
    rw [hfil]

/-- A concrete stored card (sensitive fields legacy plaintext). -/
def testCard : Card :=
  { id := 1
    bank_name := "SBI"
    branch_name := "Main"
    ifsc_code := "SBIN0001"
    account_number := SVal.raw "111"
    atm_number := SVal.raw "222"
    pin := SVal.raw "33"
    validity_start := "2024-01-01"
    validity_end := "2028-01-01"
    cvv := SVal.raw "444"
    card_type := "Debit"
    card_network := "RuPay"
    family_member := "Me"
    created_at := "T0"
    updated_at := "T0" }

/-- The unlocked test session holding one card with id 1. -/
def cardState : DBState := { testState with cards := [testCard], nextId := 2 }

/-- Flat test input fields for the writes. -/
def testFields : CardFields :=
  { bank_name := "HDFC"
    branch_name := "West"
    ifsc_code := "HDFC0002"
    account_number := "555"
    atm_number := "666"
    pin := "77"
    validity_start := "2025-01-01"
    validity_end := "2029-01-01"
    cvv := "888"
    card_type := "Credit"
    card_network := "Visa"
    family_member := "Dad" }

/-- Witness for C8 at a store holding only the card with id 1: id 99
matches nothing, so both the update and the delete leave the state
untouched. -/
theorem absent_id_noop_witness :
    update_card cardState 99 testFields "T1" = .ok cardState ∧
    delete_card cardState 99 = cardState :=
  have h := absent_id_noop cardState 99 testFields "T1" (EncKey.mk "pw" "abcd")
    (by intro c hc; simp [cardState, testState, testCard] at hc; rw [hc]; simp [testCard])
  ⟨h.1 rfl, h.2⟩

/-! ### C2: writes encrypt all four sensitive fields together -/

lemma add_card_inv {st : DBState} {f : CardFields} {now : String}
    {st' : DBState} {cid : Nat}
    (h : add_card st f now = .ok (st', cid)) :
    ∃ ea eatm ep ec,
      encrypt_data st f.account_number = .ok ea ∧
      encrypt_data st f.atm_number = .ok eatm ∧
      encrypt_data st f.pin = .ok ep ∧
      encrypt_data st f.cvv = .ok ec ∧
      st' = { st with
              cards := st.cards ++ [mkCard st.nextId f ea eatm ep ec now]
              nextId := st.nextId + 1 } ∧
      cid = st.nextId := by
  unfold add_card at h
  cases ha : encrypt_data st f.account_number with
  | error e => rw [ha] at h; exact Except.noConfusion h
  | ok ea =>
  rw [ha] at h
  cases hb : encrypt_data st f.atm_number with
  | error e => rw [hb] at h; exact Except.noConfusion h
  | ok eatm =>
  rw [hb] at h
  cases hc : encrypt_data st f.pin with
  | error e => rw [hc] at h; exact Except.noConfusion h
  | ok ep =>
  rw [hc] at h
  cases hd : encrypt_data st f.cvv with
  | error e => rw [hd] at h; exact Except.noConfusion h
  | ok ec =>
  rw [hd] at h
  have h2 := Except.ok.inj h
  exact ⟨ea, eatm, ep, ec, rfl, rfl, rfl, rfl,
    (congrArg Prod.fst h2).symm, (congrArg Prod.snd h2).symm⟩

lemma update_card_inv {st : DBState} {card_id : Nat} {f : CardFields}
    {now : String} {st'' : DBState}
    (h : update_card st card_id f now = .ok st'') :
    ∃ ea eatm ep ec,
      encrypt_data st f.account_number = .ok ea ∧
      encrypt_data st f.atm_number = .ok eatm ∧
      encrypt_data st f.pin = .ok ep ∧
      encrypt_data st f.cvv = .ok ec ∧
      st'' = { st with
               cards := st.cards.map fun c =>
                 if c.id = card_id then
                   { c with
                     bank_name := f.bank_name
                     branch_name := f.branch_name
                     ifsc_code := f.ifsc_code
                     account_number := ea
                     atm_number := eatm
                     pin := ep
                     validity_start := f.validity_start
                     validity_end := f.validity_end
                     cvv := ec
                     card_type := f.card_type
                     card_network := f.card_network
                     family_member := f.family_member
                     updated_at := now }
                 else c } := by
  unfold update_card at h
  cases ha : encrypt_data st f.account_number with
  | error e => rw [ha] at h; exact Except.noConfusion h
  | ok ea =>
  rw [ha] at h
  cases hb : encrypt_data st f.atm_number with
  | error e => rw [hb] at h; exact Except.noConfusion h
  | ok eatm =>
  rw [hb] at h
  cases hc : encrypt_data st f.pin with
  | error e => rw [hc] at h; exact Except.noConfusion h
  | ok ep =>
  rw [hc] at h
  cases hd : encrypt_data st f.cvv with
  | error e => rw [hd] at h; exact Except.noConfusion h
  | ok ec =>
  rw [hd] at h
  exact ⟨ea, eatm, ep, ec, rfl, rfl, rfl, rfl, (Except.ok.inj h).symm⟩

/-- C2. Whenever `add_card` succeeds, the single row it appends has all
four sensitive columns in `storedSensitive` form — encrypted together
under the one session key derived from the write's state, with the empty
string (never any non-empty plaintext) as the only unencrypted
possibility; and whenever `update_card` succeeds, every row of the
resulting table is either an untouched pre-existing row or has all four
sensitive columns in the same `storedSensitive` form. -/
theorem writes_encrypt_sensitive (st : DBState) (f : CardFields) (now : String)
    (st' st'' : DBState) (cid : Nat) :
    (add_card st f now = .ok (st', cid) →
      ∃ c, st'.cards = st.cards ++ [c] ∧
        storedSensitive st f.account_number c.account_number ∧
        storedSensitive st f.atm_number c.atm_number ∧
        storedSensitive st f.pin c.pin ∧
        storedSensitive st f.cvv c.cvv) ∧
    (update_card st cid f now = .ok st'' →
      ∀ c' ∈ st''.cards, c' ∈ st.cards ∨
        (storedSensitive st f.account_number c'.account_number ∧
         storedSensitive st f.atm_number c'.atm_number ∧
         storedSensitive st f.pin c'.pin ∧
         storedSensitive st f.cvv c'.cvv)) := by
  constructor
  · intro h
    obtain ⟨ea, eatm, ep, ec, ha, hb, hc, hd, hst, _⟩ := add_card_inv h
    refine ⟨mkCard st.nextId f ea eatm ep ec now, by rw [hst], ?_, ?_, ?_, ?_⟩
    · exact encrypt_data_stored ha
    · exact encrypt_data_stored hb
    · exact encrypt_data_stored hc
    · exact encrypt_data_stored hd
  · intro h c' hmem
    obtain ⟨ea, eatm, ep, ec, ha, hb, hc, hd, hst⟩ := update_card_inv h
    rw [hst] at hmem
    obtain ⟨c, hcmem, hgc⟩ := List.mem_map.mp hmem
    by_cases hid : c.id = cid
    · rw [if_pos hid] at hgc
      right
      rw [← hgc]
      exact ⟨encrypt_data_stored ha, encrypt_data_stored hb,
             encrypt_data_stored hc, encrypt_data_stored hd⟩
    · rw [if_neg hid] at hgc
      left
      rw [← hgc]
      exact hcmem

/-- The row appended by `add_card testState testFields "T1"`. -/
def addedCard : Card :=
  mkCard 1 testFields
    (SVal.tok (EncKey.mk "pw" "abcd") "555")
    (SVal.tok (EncKey.mk "pw" "abcd") "666")
    (SVal.tok (EncKey.mk "pw" "abcd") "77")
    (SVal.tok (EncKey.mk "pw" "abcd") "888") "T1"

/-- The state produced by `add_card testState testFields "T1"`. -/
def stateAfterAdd : DBState :=
  { testState with cards := [addedCard], nextId := 2 }

/-- The rewrite `update_card cardState 1 testFields "T1"` applies to
`testCard`. -/
def updatedTestCard : Card :=
  { testCard with
    bank_name := "HDFC"
    branch_name := "West"
    ifsc_code := "HDFC0002"
    account_number := SVal.tok (EncKey.mk "pw" "abcd") "555"
    atm_number := SVal.tok (EncKey.mk "pw" "abcd") "666"
    pin := SVal.tok (EncKey.mk "pw" "abcd") "77"
    validity_start := "2025-01-01"
    validity_end := "2029-01-01"
    cvv := SVal.tok (EncKey.mk "pw" "abcd") "888"
    card_type := "Credit"
    card_network := "Visa"
    family_member := "Dad"
    updated_at := "T1" }

/-- The state produced by `update_card cardState 1 testFields "T1"`. -/
def stateAfterUpdate : DBState :=
  { cardState with cards := [updatedTestCard] }

/-- Witness for C2: the concrete add appends one fully-encrypted row, and
the row rewritten by the concrete update is fully encrypted. -/
theorem writes_encrypt_sensitive_witness :
    (stateAfterAdd.cards = testState.cards ++ [addedCard] ∧
     storedSensitive testState testFields.account_number addedCard.account_number ∧
     storedSensitive testState testFields.atm_number addedCard.atm_number ∧
     storedSensitive testState testFields.pin addedCard.pin ∧
     storedSensitive testState testFields.cvv addedCard.cvv) ∧
    (updatedTestCard ∈ cardState.cards ∨
     (storedSensitive cardState testFields.account_number updatedTestCard.account_number ∧
      storedSensitive cardState testFields.atm_number updatedTestCard.atm_number ∧
      storedSensitive cardState testFields.pin updatedTestCard.pin ∧
      storedSensitive cardState testFields.cvv updatedTestCard.cvv)) := by
  constructor
  · obtain ⟨c, h1, h2, h3, h4, h5⟩ :=
      (writes_encrypt_sensitive testState testFields "T1" stateAfterAdd
        stateAfterUpdate 1).1 rfl
    have hc : c = addedCard := by
      have h1' : ([addedCard] : List Card) = [] ++ [c] := h1
      simpa using h1'.symm
    rw [hc] at h1 h2 h3 h4 h5
    exact ⟨h1, h2, h3, h4, h5⟩
  · exact (writes_encrypt_sensitive cardState testFields "T1" stateAfterAdd
      stateAfterUpdate 1).2 rfl updatedTestCard (List.mem_singleton.mpr rfl)

/-! ### C6: per-row best-effort import -/

lemma add_card_ok_of_key {st : DBState} {k : EncKey}
    (hk : get_encryption_key st = .ok k) (f : CardFields) (now : String) :
    ∃ st', add_card st f now = .ok (st', st.nextId) ∧
      st'.masterPassword = st.masterPassword ∧
      st'.passwordHash = st.passwordHash ∧
      st'.cards.length = st.cards.length + 1 :=
  ⟨_, add_card_of_key hk f now, rfl, rfl, by simp⟩

lemma length_filter_valid_add_invalid (rows : List Row) :
    (rows.filter fun r => (rowValidate r).isSome).length +
      (rows.filter fun r => (rowValidate r).isNone).length = rows.length := by
  induction rows with
  | nil => rfl
  | cons r rows ih =>
    cases hv : rowValidate r <;> simp [List.filter_cons, hv] <;> omega

lemma import_fold_spec (now : String) (k : EncKey) (rows : List Row) :
    ∀ (st : DBState) (i s : Nat), get_encryption_key st = .ok k →
      ((rows.foldl (fun acc r => importStep acc r now) (st, i, s)).2.1 =
         i + (rows.filter fun r => (rowValidate r).isSome).length ∧
       (rows.foldl (fun acc r => importStep acc r now) (st, i, s)).2.2 =
         s + (rows.filter fun r => (rowValidate r).isNone).length ∧
       (rows.foldl (fun acc r => importStep acc r now) (st, i, s)).1.cards.length =
         st.cards.length + (rows.filter fun r => (rowValidate r).isSome).length) := by
  induction rows with
  | nil => intro st i s hk; simp
  | cons r rows ih =>
    intro st i s hk
    rw [List.foldl_cons]
    cases hv : rowValidate r with
    | none =>
      have hstep : importStep (st, i, s) r now = (st, i, s + 1) := by
        unfold importStep; rw [hv]
      rw [hstep]
      obtain ⟨h1, h2, h3⟩ := ih st i (s + 1) hk
      have hcount : ((r :: rows).filter fun r => (rowValidate r).isSome) =
          rows.filter fun r => (rowValidate r).isSome := by
        simp [List.filter_cons, hv]
      have hcount2 : (((r :: rows).filter fun r => (rowValidate r).isNone)).length =
          (rows.filter fun r => (rowValidate r).isNone).length + 1 := by
        simp [List.filter_cons, hv]
      rw [hcount, hcount2]
      exact ⟨h1, by omega, h3⟩
    | some f =>
      obtain ⟨st1, hadd, hm, hp, hlen⟩ := add_card_ok_of_key hk f now
      have hstep : importStep (st, i, s) r now = (st1, i + 1, s) := by
        unfold importStep
        rw [hv]
        simp only [hadd]
      rw [hstep]
      have hk1 : get_encryption_key st1 = .ok k := by
        rw [get_encryption_key_congr hm hp]; exact hk
      obtain ⟨h1, h2, h3⟩ := ih st1 (i + 1) s hk1
      refine ⟨?_, ?_, ?_⟩ <;> simp [List.filter_cons, hv, h1, h2, h3] <;> omega

lemma rowValidate_none_iff (r : Row) :
    rowValidate r = none ↔
      (requiredOk (readRow r) = false ∨
       (digitsOnly (readRow r).atm_number).length ≠ 16 ∨
       strptimeYmd (readRow r).validity_start = false ∨
       strptimeYmd (readRow r).validity_end = false) := by
  by_cases h1 : requiredOk (readRow r) <;>
    by_cases h2 : (digitsOnly (readRow r).atm_number).length = 16 <;>
      by_cases h3 : strptimeYmd (readRow r).validity_start <;>
        by_cases h4 : strptimeYmd (readRow r).validity_end <;>
          simp [rowValidate, h1, h2, h3, h4]

/-- C6. With the session key available, `import_from_excel` processes each
data row independently: a row is skipped exactly when it fails the
per-row validation (a required field empty after trimming, the
digit-stripped ATM number not 16 digits long, or a validity date failing
to parse as `%Y-%m-%d`; with the key available no unexpected per-row error
arises); otherwise it is added — the card table grows by exactly the
imported count. The call returns `(imported_count, skipped_count)`, the
two counts sum to the number of data rows (each row increments exactly one
of them), and no row failure aborts the operation. -/
theorem import_from_excel_spec (st : DBState) (rows : List Row) (now : String)
    (k : EncKey) (hk : get_encryption_key st = .ok k) :
    ((import_from_excel st rows now).2.1 =
       (rows.filter fun r => (rowValidate r).isSome).length ∧
     (import_from_excel st rows now).2.2 =
       (rows.filter fun r => (rowValidate r).isNone).length ∧
     (import_from_excel st rows now).2.1 + (import_from_excel st rows now).2.2 =
       rows.length ∧
     (import_from_excel st rows now).1.cards.length =
       st.cards.length + (import_from_excel st rows now).2.1) ∧
    (∀ r, rowValidate r = none ↔
       (requiredOk (readRow r) = false ∨
        (digitsOnly (readRow r).atm_number).length ≠ 16 ∨
        strptimeYmd (readRow r).validity_start = false ∨
        strptimeYmd (readRow r).validity_end = false)) := by
  obtain ⟨h1, h2, h3⟩ := import_fold_spec now k rows st 0 0 hk
  refine ⟨⟨?_, ?_, ?_, ?_⟩, fun r => rowValidate_none_iff r⟩
  · unfold import_from_excel; rw [h1]; omega
  · unfold import_from_excel; rw [h2]; omega
  · unfold import_from_excel
    rw [h1, h2]
    have := length_filter_valid_add_invalid rows
    omega
  · unfold import_from_excel
    rw [h3, h1]
    omega

/-- A well-formed import row (valid 16-digit ATM number with spaces,
valid dates, defaults left blank for `card_type`). -/
def rGood : Row :=
  { bank_name := some "SBI"
    branch_name := some "Main"
    ifsc_code := some "SBIN0001"
    account_number := some "123456"
    atm_number := some "1234 5678 9012 3456"
    pin := some "1234"
    validity_start := some "2024-01-01"
    validity_end := some "2028-01-01"
    cvv := some "123"
    card_type := none
    card_network := some "VISA"
    family_member := some "Me" }

/-- The same row with a 3-digit ATM number: rejected by the length check. -/
def rBadAtm : Row :=
  { rGood with atm_number := some "123" }

/-- Witness for C6: importing one valid and one invalid row into the
unlocked test store yields `(1, 1)`, the rejected row failing exactly the
ATM-length condition. -/
theorem import_from_excel_spec_witness :
    (import_from_excel testState [rGood, rBadAtm] "T1").2.1 = 1 ∧
    (import_from_excel testState [rGood, rBadAtm] "T1").2.2 = 1 ∧
    (rowValidate rBadAtm = none ↔
      (requiredOk (readRow rBadAtm) = false ∨
       (digitsOnly (readRow rBadAtm).atm_number).length ≠ 16 ∨
       strptimeYmd (readRow rBadAtm).validity_start = false ∨
       strptimeYmd (readRow rBadAtm).validity_end = false)) := by
  have h := import_from_excel_spec testState [rGood, rBadAtm] "T1"
    (EncKey.mk "pw" "abcd") rfl
  refine ⟨?_, ?_, h.2 rBadAtm⟩
  · rw [h.1.1]; decide
  · rw [h.1.2.1]; decide

/-! ### C10: import never mutates or deletes pre-existing records -/

lemma import_fold_frame (now : String) (rows : List Row) :
    ∀ (st : DBState) (i s : Nat),
      ∃ new,
        (rows.foldl (fun acc r => importStep acc r now) (st, i, s)).1.cards =
          st.cards ++ new ∧
        (rows.foldl (fun acc r => importStep acc r now) (st, i, s)).1.masterPassword =
          st.masterPassword ∧
        (rows.foldl (fun acc r => importStep acc r now) (st, i, s)).1.passwordHash =
          st.passwordHash := by
  induction rows with
  | nil => intro st i s; exact ⟨[], by simp, rfl, rfl⟩
  | cons r rows ih =>
    intro st i s
    rw [List.foldl_cons]
    cases hv : rowValidate r with
    | none =>
      have hstep : importStep (st, i, s) r now = (st, i, s + 1) := by
        unfold importStep; rw [hv]
      rw [hstep]
      exact ih st i (s + 1)
    | some f =>
      cases hadd : add_card st f now with
      | error e =>
        have hstep : importStep (st, i, s) r now = (st, i, s + 1) := by
          unfold importStep
          rw [hv]
          simp only [hadd]
        rw [hstep]
        exact ih st i (s + 1)
      | ok p =>
        obtain ⟨st1, cid⟩ := p
        have hstep : importStep (st, i, s) r now = (st1, i + 1, s) := by
          unfold importStep
          rw [hv]
          simp only [hadd]
        rw [hstep]
        obtain ⟨ea, eatm, ep, ec, _, _, _, _, hst, _⟩ := add_card_inv hadd
        obtain ⟨new, h1, h2, h3⟩ := ih st1 (i + 1) s
        refine ⟨mkCard st.nextId f ea eatm ep ec now :: new, ?_, ?_, ?_⟩
        · rw [h1, hst]; simp
        · rw [h2, hst]
        · rw [h3, hst]

/-- C10. `import_from_excel` only ever appends: whatever the workbook
contains, the resulting card table is the old table with some new records
appended after it — every pre-existing record is still present, in place,
with all its fields (timestamps and sensitive fields included) unchanged —
and the settings entry and session are untouched. -/
theorem import_preserves_existing (st : DBState) (rows : List Row) (now : String) :
    ∃ new,
      (import_from_excel st rows now).1.cards = st.cards ++ new ∧
      (import_from_excel st rows now).1.masterPassword = st.masterPassword ∧
      (import_from_excel st rows now).1.passwordHash = st.passwordHash :=
  import_fold_frame now rows st 0 0

/-! ### C9: trimmed reads and the card_type/card_network defaults -/

lemma dropWhile_self_of_cons {p : Char → Bool} {b : Char} {m : List Char}
    (h : (b :: m).dropWhile p = b :: m) : p b = false := by
  by_cases hb : p b
  · rw [List.dropWhile_cons_of_pos hb] at h
    have hle := (List.dropWhile_sublist (l := m) p).length_le
    rw [h] at hle
    simp at hle
  · simpa using hb

lemma dropWhile_self_of_append {p : Char → Bool} {B t : List Char}
    (h : (B ++ t).dropWhile p = B ++ t) : B.dropWhile p = B := by
  cases B with
  | nil => rfl
  | cons b B' =>
    rw [List.cons_append] at h
    have hb : p b = false := dropWhile_self_of_cons h
    rw [List.dropWhile_cons_of_neg (by simp [hb])]

lemma dropWhile_idem (p : Char → Bool) (l : List Char) :
    (l.dropWhile p).dropWhile p = l.dropWhile p := by
  induction l with
  | nil => rfl
  | cons a l ih =>
    by_cases h : p a
    · rw [List.dropWhile_cons_of_pos h, ih]
    · rw [List.dropWhile_cons_of_neg h, List.dropWhile_cons_of_neg h]

/-- `str.strip()` is idempotent: a value read by the import loop carries
no leading or trailing whitespace. -/
lemma pyStrip_idem (s : String) : pyStrip (pyStrip s) = pyStrip s := by
  unfold pyStrip
  set p := Char.isWhitespace with hp
  set A := s.data.dropWhile p with hA
  set B := (A.reverse.dropWhile p).reverse with hB
  have hAfix : A.dropWhile p = A := by rw [hA]; exact dropWhile_idem p s.data
  have hsplit : A = B ++ (A.reverse.takeWhile p).reverse := by
    rw [hB, ← List.reverse_append, List.takeWhile_append_dropWhile, List.reverse_reverse]
  have hBfix : B.dropWhile p = B :=
    dropWhile_self_of_append (hsplit ▸ hAfix)
  have hBrevfix : B.reverse.dropWhile p = B.reverse := by
    rw [hB, List.reverse_reverse]
    exact dropWhile_idem p A.reverse
  show (⟨((String.mk B).data.dropWhile p).reverse.dropWhile p |>.reverse⟩ : String) = ⟨B⟩
  show (⟨(B.dropWhile p).reverse.dropWhile p |>.reverse⟩ : String) = ⟨B⟩
  rw [hBfix, hBrevfix, List.reverse_reverse]

lemma rowValidate_some_meta {r : Row} {f : CardFields}
    (h : rowValidate r = some f) :
    f.card_type = (readRow r).card_type ∧
    f.card_network = (readRow r).card_network := by
  simp only [rowValidate] at h
  split at h
  · split at h
    · split at h
      · injection h with h
        rw [← h]
        exact ⟨rfl, rfl⟩
      · exact Option.noConfusion h
    · exact Option.noConfusion h
  · exact Option.noConfusion h

/-- C9. Every one of the twelve fields the import loop reads is a trimmed
string (trimming it again changes nothing), and a blank (`None` or empty)
`card_type` cell is read as `"Debit"` and a blank `card_network` cell as
`"RuPay"` — so a row imported with a blank cell carries the default, not
the empty string. -/
theorem import_reads_trimmed_with_defaults (r : Row) (f : CardFields) :
    ((r.card_type = none ∨ r.card_type = some "") →
      (readRow r).card_type = "Debit") ∧
    ((r.card_network = none ∨ r.card_network = some "") →
      (readRow r).card_network = "RuPay") ∧
    (rowValidate r = some f → (r.card_type = none ∨ r.card_type = some "") →
      f.card_type = "Debit") ∧
    (rowValidate r = some f → (r.card_network = none ∨ r.card_network = some "") →
      f.card_network = "RuPay") ∧
    (pyStrip (readRow r).bank_name = (readRow r).bank_name ∧
     pyStrip (readRow r).branch_name = (readRow r).branch_name ∧
     pyStrip (readRow r).ifsc_code = (readRow r).ifsc_code ∧
     pyStrip (readRow r).account_number = (readRow r).account_number ∧
     pyStrip (readRow r).atm_number = (readRow r).atm_number ∧
     pyStrip (readRow r).pin = (readRow r).pin ∧
     pyStrip (readRow r).validity_start = (readRow r).validity_start ∧
     pyStrip (readRow r).validity_end = (readRow r).validity_end ∧
     pyStrip (readRow r).cvv = (readRow r).cvv ∧
     pyStrip (readRow r).card_type = (readRow r).card_type ∧
     pyStrip (readRow r).card_network = (readRow r).card_network ∧
     pyStrip (readRow r).family_member = (readRow r).family_member) := by
  have htype : (r.card_type = none ∨ r.card_type = some "") →
      (readRow r).card_type = "Debit" := by
    intro h
    show cellStr r.card_type "Debit" = "Debit"
    rcases h with h | h <;> rw [h] <;> rfl
  have hnet : (r.card_network = none ∨ r.card_network = some "") →
      (readRow r).card_network = "RuPay" := by
    intro h
    show cellStr r.card_network "RuPay" = "RuPay"
    rcases h with h | h <;> rw [h] <;> rfl
  refine ⟨htype, hnet, ?_, ?_, ?_⟩
  · intro hv hb
    rw [(rowValidate_some_meta hv).1]
    exact htype hb
  · intro hv hb
    rw [(rowValidate_some_meta hv).2]
    exact hnet hb
  · unfold readRow cellStr
    exact ⟨pyStrip_idem _, pyStrip_idem _, pyStrip_idem _, pyStrip_idem _,
           pyStrip_idem _, pyStrip_idem _, pyStrip_idem _, pyStrip_idem _,
           pyStrip_idem _, pyStrip_idem _, pyStrip_idem _, pyStrip_idem _⟩

/-- `rGood` with an explicitly empty `card_network` cell (its `card_type`
cell is already `None`): both defaults apply. -/
def rBlank : Row :=
  { rGood with card_network := some "" }

/-- The fields `rowValidate` produces for `rBlank`. -/
def fBlank : CardFields :=
  { bank_name := "SBI"
    branch_name := "Main"
    ifsc_code := "SBIN0001"
    account_number := "123456"
    atm_number := "1234567890123456"
    pin := "1234"
    validity_start := "2024-01-01"
    validity_end := "2028-01-01"
    cvv := "123"
    card_type := "Debit"
    card_network := "RuPay"
    family_member := "Me" }

/-- Witness for C9: the row with a `None` `card_type` cell and an empty
`card_network` cell is read — and imported — with the defaults, and a
sample read field is trim-fixed. -/
theorem import_reads_trimmed_with_defaults_witness :
    (readRow rBlank).card_type = "Debit" ∧
    (readRow rBlank).card_network = "RuPay" ∧
    fBlank.card_type = "Debit" ∧
    fBlank.card_network = "RuPay" ∧
    pyStrip (readRow rBlank).bank_name = (readRow rBlank).bank_name := by
  have h := import_reads_trimmed_with_defaults rBlank fBlank
  exact ⟨h.1 (Or.inl rfl), h.2.1 (Or.inr rfl),
         h.2.2.1 (by decide) (Or.inl rfl), h.2.2.2.1 (by decide) (Or.inr rfl),
         h.2.2.2.2.1⟩
